import Mathlib

/-!
# Verification of the gamedevbench benchmark core

A shallow embedding, in Lean 4, of the parts of the gamedevbench repository
that its design document makes checkable claims about:

* `ValidationParser.parse_output` (src/gamedevbench/src/utils/validation.py);
* the sandbox construction and validation-directory assembly of
  `GodotBenchmarkRunner` (src/gamedevbench/src/benchmark_runner.py);
* `SolverFactory.create_solver` (src/gamedevbench/src/solver_factory.py)
  together with the capability re-check in `BaseSolver.__init__`;
* the batch loop `run_all_tasks`, the per-task persistence helper
  `_save_final_results` and the aggregate builder
  `_create_final_results_summary` of `GodotBenchmarkRunner`.

Python strings are modelled as `String` / `List Char`; filesystem trees as a
mutual inductive of files and directories; JSON values as an inductive;
machine floats that only ever carry exact decimal data (rates, averages) as
`ℚ`; fallible operations (filesystem errors, exceptions swallowed by
`except` blocks) as `Option`/`Except`.
-/

namespace GameDevBench

/-! ## Validation parser (utils/validation.py)

`ValidationParser.parse_output` strips the output, splits on newlines, strips
each line and scans for the regexes `VALIDATION_PASSED(?::\s*(.+))?` and
`VALIDATION_FAILED(?::\s*(.+))?`, the pass pattern being tried first on each
line.  The model works on `List Char`.
-/

/-- Model of the Python `ValidationResult` dataclass (utils/data_types.py).
The `timestamp` field (wall-clock side effect) is not modelled; `details`
is the string-valued dict the parser actually builds. -/
structure ValidationResult where
  success : Bool
  message : String
  details : List (String × String)
deriving DecidableEq

/-- Python `str.split("\n")`: split on every newline, keeping empty pieces;
the empty string yields one empty piece. -/
def splitNl : List Char → List (List Char)
  | [] => [[]]
  | '\n' :: t => [] :: splitNl t
  | c :: t =>
    match splitNl t with
    | [] => [[c]]
    | l :: ls => (c :: l) :: ls

/-- Python `str.strip()`: drop leading and trailing whitespace. -/
def stripWs (s : List Char) : List Char :=
  ((s.dropWhile Char.isWhitespace).reverse.dropWhile Char.isWhitespace).reverse

/-- Part of `re.search` for the marker patterns: the suffix of `hay` after
the leftmost occurrence of the literal `marker`, or `none` when the literal
does not occur. -/
def searchAfter (marker : List Char) : List Char → Option (List Char)
  | [] => if marker.isEmpty then some [] else none
  | c :: t =>
    if marker.isPrefixOf (c :: t) then some ((c :: t).drop marker.length)
    else searchAfter marker t

/-- The optional group `(?::\s*(.+))?` applied to the text after the marker:
`some msg` when a colon, optional whitespace and a nonempty message follow,
`none` when the optional group matches empty.  The middle branch mirrors the
regex backtracking where `\s*` yields its final character to `(.+)`. -/
def optMsgCapture : List Char → Option (List Char)
  | ':' :: t =>
    let m := t.dropWhile Char.isWhitespace
    if m.isEmpty then
      if t.isEmpty then none
      else some (t.drop (t.length - 1))
    else some m
  | _ => none

/-- `re.search(MARKER ++ "(?::\s*(.+))?", line)`: `none` if the marker does
not occur in the line, `some g` if it does, where `g` is the optional
message group. -/
def searchMarker (marker : List Char) (line : List Char) : Option (Option (List Char)) :=
  (searchAfter marker line).map optMsgCapture

/-- The literal of `ValidationParser.VALIDATION_PASSED_PATTERN`. -/
def PASSED_MARKER : List Char := "VALIDATION_PASSED".toList

/-- The literal of `ValidationParser.VALIDATION_FAILED_PATTERN`. -/
def FAILED_MARKER : List Char := "VALIDATION_FAILED".toList

/-- Python's `match.group(1) or default`: the captured message unless the
capture is missing (or empty, which `or` also replaces). -/
def mkMessage (dflt : String) : Option (List Char) → String
  | some m => if m.isEmpty then dflt else String.mk m
  | none => dflt

/-- The `details` dict attached to a marker result: full output in debug
mode, empty otherwise. -/
def markerDetails (output : String) (debug : Bool) : List (String × String) :=
  if debug then [("full_output", output)] else []

/-- The line scan of `ValidationParser.parse_output`: each line is stripped,
the pass pattern is tried before the fail pattern, the first marker found
wins, and exhausting the lines is a failure. -/
def parseLines (output : String) (debug : Bool) : List (List Char) → ValidationResult
  | [] => ⟨false, "No validation result found in output", [("output", output)]⟩
  | l :: rest =>
    let line := stripWs l
    match searchMarker PASSED_MARKER line with
    | some msg => ⟨true, mkMessage "Validation passed" msg, markerDetails output debug⟩
    | none =>
      match searchMarker FAILED_MARKER line with
      | some msg => ⟨false, mkMessage "Validation failed" msg, markerDetails output debug⟩
      | none => parseLines output debug rest

/-- `ValidationParser.parse_output(output, debug)`. -/
def parse_output (output : String) (debug : Bool) : ValidationResult :=
  parseLines output debug (splitNl (stripWs output.toList))

theorem parseLines_skip (output : String) (debug : Bool) (pre rest : List (List Char))
    (h : ∀ l ∈ pre, searchMarker PASSED_MARKER (stripWs l) = none ∧
          searchMarker FAILED_MARKER (stripWs l) = none) :
    parseLines output debug (pre ++ rest) = parseLines output debug rest := by
  induction pre with
  | nil => rfl
  | cons l ls ih =>
    have hl := h l (by simp)
    simp only [List.cons_append, parseLines, hl.1, hl.2]
    exact ih (fun x hx => h x (by simp [hx]))

/-- C6: when no line of the output matches the pass marker pattern and no
line matches the fail marker pattern, `parse_output` returns a failure with
message "No validation result found in output"; absence of markers is never
treated as success. -/
theorem parse_output_no_marker (output : String) (debug : Bool)
    (h : ∀ l ∈ splitNl (stripWs output.toList),
          searchMarker PASSED_MARKER (stripWs l) = none ∧
          searchMarker FAILED_MARKER (stripWs l) = none) :
    parse_output output debug =
      ⟨false, "No validation result found in output", [("output", output)]⟩ := by
  have := parseLines_skip output debug (splitNl (stripWs output.toList)) [] h
  simpa [parse_output, parseLines] using this

/-- C6 witness: the empty output (the spec's scenario) is reported as the
no-result failure. -/
theorem parse_output_no_marker_witness :
    parse_output "" false =
      ⟨false, "No validation result found in output", [("output", "")]⟩ :=
  parse_output_no_marker "" false (by decide)

/-- C7: the first line carrying a marker decides the result, whatever the
later lines contain.  If the earliest marker line matches the pass pattern
the result is a success carrying the pass message (defaulting to
"Validation passed"); if it matches only the fail pattern the result is a
failure carrying the fail message (defaulting to "Validation failed").  In
particular an output containing both markers on different lines resolves to
whichever marker occurs first in line order. -/
theorem parse_output_first_marker_wins (output : String) (debug : Bool)
    (pre rest : List (List Char)) (lm : List Char)
    (hsplit : splitNl (stripWs output.toList) = pre ++ lm :: rest)
    (hpre : ∀ l ∈ pre, searchMarker PASSED_MARKER (stripWs l) = none ∧
             searchMarker FAILED_MARKER (stripWs l) = none) :
    (∀ m, searchMarker PASSED_MARKER (stripWs lm) = some m →
      parse_output output debug =
        ⟨true, mkMessage "Validation passed" m, markerDetails output debug⟩) ∧
    (∀ m, searchMarker PASSED_MARKER (stripWs lm) = none →
      searchMarker FAILED_MARKER (stripWs lm) = some m →
      parse_output output debug =
        ⟨false, mkMessage "Validation failed" m, markerDetails output debug⟩) := by
  constructor
  · intro m hm
    rw [parse_output, hsplit, parseLines_skip output debug pre _ hpre]
    simp [parseLines, hm]
  · intro m hnone hm
    rw [parse_output, hsplit, parseLines_skip output debug pre _ hpre]
    simp [parseLines, hnone, hm]

/-- C7 witness: with a pass line before a fail line the pass marker wins;
with the fail line first (after a marker-free line) the fail marker wins. -/
theorem parse_output_first_marker_wins_witness :
    parse_output "VALIDATION_PASSED: ok\nVALIDATION_FAILED: bad" false =
      ⟨true, "ok", []⟩ ∧
    parse_output "engine booted\nVALIDATION_FAILED: bad\nVALIDATION_PASSED: ok" false =
      ⟨false, "bad", []⟩ := by
  constructor
  · have h := (parse_output_first_marker_wins
      "VALIDATION_PASSED: ok\nVALIDATION_FAILED: bad" false
      [] ["VALIDATION_FAILED: bad".toList] "VALIDATION_PASSED: ok".toList
      (by decide) (by decide)).1 (some "ok".toList) (by decide)
    simpa [mkMessage, markerDetails] using h
  · have h := (parse_output_first_marker_wins
      "engine booted\nVALIDATION_FAILED: bad\nVALIDATION_PASSED: ok" false
      ["engine booted".toList] ["VALIDATION_PASSED: ok".toList]
      "VALIDATION_FAILED: bad".toList
      (by decide) (by decide)).2 (some "bad".toList) (by decide) (by decide)
    simpa [mkMessage, markerDetails] using h

/-! ## Filesystem trees and the sandbox (benchmark_runner.py)

Directories are finite lists of named entries; an entry is a file with
string content or a subdirectory.  A directory listing is modelled in
iteration order (`Path.iterdir`).
-/

mutual
/-- A filesystem entry: a file with its byte content, or a directory. -/
inductive FSTree where
  | file (name content : String)
  | dir (name : String) (children : FSList)
deriving DecidableEq

/-- A directory listing. -/
inductive FSList where
  | nil
  | cons (head : FSTree) (tail : FSList)
deriving DecidableEq
end

/-- Name of an entry. -/
def FSTree.name : FSTree → String
  | .file n _ => n
  | .dir n _ => n

/-- Append one entry at the end of a listing (a fresh file written into an
existing directory). -/
def appendEntry : FSList → FSTree → FSList
  | .nil, e => .cons e .nil
  | .cons h t, e => .cons h (appendEntry t e)

mutual
/-- Does some file anywhere in the tree have a name satisfying `p`? -/
def anyFileSat (p : String → Bool) : FSTree → Bool
  | .file n _ => p n
  | .dir _ cs => anyFileSatL p cs

/-- `anyFileSat` over a listing. -/
def anyFileSatL (p : String → Bool) : FSList → Bool
  | .nil => false
  | .cons t ts => anyFileSat p t || anyFileSatL p ts
end

mutual
/-- Does some directory anywhere in the tree have a name satisfying `p`? -/
def anyDirSat (p : String → Bool) : FSTree → Bool
  | .file _ _ => false
  | .dir n cs => p n || anyDirSatL p cs

/-- `anyDirSat` over a listing. -/
def anyDirSatL (p : String → Bool) : FSList → Bool
  | .nil => false
  | .cons t ts => anyDirSat p t || anyDirSatL p ts
end

/-- `should_skip_file` from `_create_sandbox_environment`: lower-case the
name, then skip names starting with "test", the manifest name
`task_config.json`, `.log` and `.md` suffixes, and hidden files.  (Python's
`str.lower` is Unicode-aware; like Lean's `Char.toLower` it is the identity
on the ASCII-less corner cases relevant here.) -/
def should_skip_file (fileName : String) : Bool :=
  let name := fileName.toList.map Char.toLower
  "test".toList.isPrefixOf name ||
  name == "task_config.json".toList ||
  ".log".toList.isSuffixOf name ||
  ".md".toList.isSuffixOf name ||
  ".".toList.isPrefixOf name

/-- `should_skip_directory` from `_create_sandbox_environment`: skip hidden
directories and `.backup` directories. -/
def should_skip_directory (dirName : String) : Bool :=
  let name := dirName.toList.map Char.toLower
  ".".toList.isPrefixOf name || name == ".backup".toList

/-- `copy_directory_filtered` from `_create_sandbox_environment` (the same
filter is applied at the task-directory root): recursively copy, dropping
blacklisted files and pruning blacklisted directories. -/
def copy_directory_filtered : FSList → FSList
  | .nil => .nil
  | .cons (.file n c) rest =>
    if should_skip_file n then copy_directory_filtered rest
    else .cons (.file n c) (copy_directory_filtered rest)
  | .cons (.dir n cs) rest =>
    if should_skip_directory n then copy_directory_filtered rest
    else .cons (.dir n (copy_directory_filtered cs)) (copy_directory_filtered rest)

/-! ### JSON model and the redacted manifest -/

/-- JSON values, as produced by `json.load`. -/
inductive Json where
  | null
  | bool (b : Bool)
  | num (n : Int)
  | str (s : String)
  | arr (elems : List Json)
  | obj (fields : List (String × Json))

/-- Python `d.get(key, default)`: `some` of the bound value (or the default)
when the receiver is a dict, `none` when the receiver is any other JSON
value (an `AttributeError` is raised). -/
def pyDictGet (j : Json) (key : String) (dflt : Json) : Option Json :=
  match j with
  | .obj kvs => some (((kvs.find? (fun p => p.1 == key)).map Prod.snd).getD dflt)
  | _ => none

/-- Python truthiness of a JSON value (`if not config:`). -/
def pyTruthy : Json → Bool
  | .null => false
  | .bool b => b
  | .num n => !(n == 0)
  | .str s => !(s == "")
  | .arr xs => !xs.isEmpty
  | .obj kvs => !kvs.isEmpty

/-- Reading a root-level regular file: `some content` when a file of that
name is a direct child, `none` when it is missing or is a directory (in
which case `open` raises and the caller's `except` swallows it — the same
outcome as a missing file everywhere this is used). -/
def readRootFile : FSList → String → Option String
  | .nil, _ => none
  | .cons (.file n c) rest, target =>
    if n == target then some c else readRootFile rest target
  | .cons (.dir n _) rest, target =>
    if n == target then none else readRootFile rest target

/-- The replacement manifest built by `_create_sandbox_environment`:
`{"instruction": full_config.get("instruction", "No instruction provided")}`,
or `none` when `.get` raises because the parsed manifest is not a dict. -/
def minimal_manifest (full_config : Json) : Option Json :=
  (pyDictGet full_config "instruction" (.str "No instruction provided")).map
    (fun v => Json.obj [("instruction", v)])

/-- `_create_sandbox_environment`: the blacklist-filtered copy of the task
directory, followed by the attempt to write the redacted manifest.  JSON
parsing (`json.load`) and serialisation (`json.dump`) are abstract
parameters; `parseJson content = none` models a parse error, which the
`except` block swallows, leaving the sandbox without a manifest.  Returns
the sandbox listing together with the manifest object written (if any). -/
def create_sandbox_environment (task_dir : FSList) (parseJson : String → Option Json)
    (printJson : Json → String) : FSList × Option Json :=
  let sandbox := copy_directory_filtered task_dir
  match readRootFile task_dir "task_config.json" with
  | none => (sandbox, none)
  | some content =>
    match parseJson content with
    | none => (sandbox, none)
    | some cfg =>
      match minimal_manifest cfg with
      | none => (sandbox, none)
      | some m => (appendEntry sandbox (.file "task_config.json" (printJson m)), some m)

theorem filtered_anyFileSat_false (q : String → Bool)
    (himp : ∀ n, q n = true → should_skip_file n = true) (ts : FSList) :
    anyFileSatL q (copy_directory_filtered ts) = false := by
  induction ts using copy_directory_filtered.induct with
  | case1 => rfl
  | case2 n c rest hskip ih => simpa [copy_directory_filtered, hskip] using ih
  | case3 n c rest hskip ih =>
    cases hq : q n with
    | true => exact absurd (himp n hq) hskip
    | false => simp [copy_directory_filtered, hskip, anyFileSatL, anyFileSat, hq, ih]
  | case4 n cs rest hskip ih => simpa [copy_directory_filtered, hskip] using ih
  | case5 n cs rest hskip ihcs ih =>
    simp [copy_directory_filtered, hskip, anyFileSatL, anyFileSat, ihcs, ih]

theorem filtered_anyDirSat_false (q : String → Bool)
    (himp : ∀ n, q n = true → should_skip_directory n = true) (ts : FSList) :
    anyDirSatL q (copy_directory_filtered ts) = false := by
  induction ts using copy_directory_filtered.induct with
  | case1 => rfl
  | case2 n c rest hskip ih => simpa [copy_directory_filtered, hskip] using ih
  | case3 n c rest hskip ih =>
    simp [copy_directory_filtered, hskip, anyDirSatL, anyDirSat, ih]
  | case4 n cs rest hskip ih => simpa [copy_directory_filtered, hskip] using ih
  | case5 n cs rest hskip ihcs ih =>
    cases hq : q n with
    | true => exact absurd (himp n hq) hskip
    | false => simp [copy_directory_filtered, hskip, anyDirSatL, anyDirSat, hq, ihcs, ih]

theorem readRootFile_filtered_skip (target : String)
    (h : should_skip_file target = true) (ts : FSList) :
    readRootFile (copy_directory_filtered ts) target = none := by
  induction ts using copy_directory_filtered.induct with
  | case1 => rfl
  | case2 n c rest hskip ih => simpa [copy_directory_filtered, hskip] using ih
  | case3 n c rest hskip ih =>
    by_cases hn : n = target
    · subst hn; exact absurd h hskip
    · simpa [copy_directory_filtered, hskip, readRootFile, hn] using ih
  | case4 n cs rest hskip ih => simpa [copy_directory_filtered, hskip] using ih
  | case5 n cs rest hskip ihcs ih =>
    by_cases hn : n = target
    · subst hn
      simp [copy_directory_filtered, hskip, readRootFile]
    · simpa [copy_directory_filtered, hskip, readRootFile, hn] using ih

/-- C1: the blacklist copy is airtight — no file anywhere in the filtered
sandbox tree has a name that case-insensitively starts with "test", equals
`task_config.json`, ends in `.log` or `.md`, or is hidden, and no directory
anywhere in it is hidden or a backup directory; the full
`_create_sandbox_environment` result is exactly this filtered tree, plus
possibly the replacement `task_config.json` the runner then writes into the
sandbox root. -/
theorem sandbox_excludes_blacklisted (task_dir : FSList) :
    anyFileSatL should_skip_file (copy_directory_filtered task_dir) = false ∧
    anyDirSatL should_skip_directory (copy_directory_filtered task_dir) = false ∧
    ∀ parseJson printJson,
      (create_sandbox_environment task_dir parseJson printJson).1 =
          copy_directory_filtered task_dir ∨
      ∃ m, (create_sandbox_environment task_dir parseJson printJson).2 = some m ∧
        (create_sandbox_environment task_dir parseJson printJson).1 =
          appendEntry (copy_directory_filtered task_dir)
            (.file "task_config.json" (printJson m)) := by
  refine ⟨filtered_anyFileSat_false _ (fun n h => h) task_dir,
    filtered_anyDirSat_false _ (fun n h => h) task_dir, ?_⟩
  intro parseJson printJson
  cases hread : readRootFile task_dir "task_config.json" with
  | none => left; simp [create_sandbox_environment, hread]
  | some content =>
    cases hparse : parseJson content with
    | none => left; simp [create_sandbox_environment, hread, hparse]
    | some cfg =>
      cases hmin : minimal_manifest cfg with
      | none => left; simp [create_sandbox_environment, hread, hparse, hmin]
      | some m =>
        right
        exact ⟨m, by simp [create_sandbox_environment, hread, hparse, hmin],
          by simp [create_sandbox_environment, hread, hparse, hmin]⟩

/-- A parse oracle under which the literal `[]` parses as the empty JSON
array (valid JSON, but not an object). -/
def c3Parse : String → Option Json :=
  fun s => if s == "[]" then some (.arr []) else none

/-- A task directory whose manifest parses as JSON but not as a JSON object. -/
def c3TaskDir : FSList := .cons (.file "task_config.json" "[]") .nil

/-- C3 counterexample: a source `task_config.json` that exists and parses as
JSON — here the array `[]` — but is not a JSON object makes
`full_config.get("instruction", ...)` raise `AttributeError`; the `except`
swallows it and no replacement manifest at all is written, so the sandbox
ends up with no `task_config.json` file, contradicting the claim that for
every parsing manifest the written replacement has exactly one key. -/
theorem manifest_not_written_for_json_array :
    (create_sandbox_environment c3TaskDir c3Parse (fun _ => "")).2 = none ∧
    anyFileSatL (fun n => n == "task_config.json")
      (create_sandbox_environment c3TaskDir c3Parse (fun _ => "")).1 = false := by
  exact ⟨rfl, by decide⟩

/-- C3 (amended): for every source `task_config.json` that exists and parses
as a JSON *object*, the replacement manifest written into the sandbox
contains exactly one key, "instruction", even when the source manifest has
additional fields such as name, description, requires_display, or hints;
its value is the source's instruction field, or the string
"No instruction provided" when that field is absent.  (As stated, over all
values that parse as JSON, the claim fails: a manifest parsing to a
non-object JSON value leaves the sandbox without any manifest.) -/
theorem manifest_redacted_to_instruction (task_dir : FSList)
    (parseJson : String → Option Json) (printJson : Json → String)
    (content : String) (kvs : List (String × Json))
    (hread : readRootFile task_dir "task_config.json" = some content)
    (hparse : parseJson content = some (.obj kvs)) :
    (create_sandbox_environment task_dir parseJson printJson).2 =
      some (.obj [("instruction",
        ((kvs.find? (fun p => p.1 == "instruction")).map Prod.snd).getD
          (.str "No instruction provided"))]) ∧
    ∀ m, (create_sandbox_environment task_dir parseJson printJson).2 = some m →
      ∃ v, m = .obj [("instruction", v)] := by
  have hmain : (create_sandbox_environment task_dir parseJson printJson).2 =
      some (.obj [("instruction",
        ((kvs.find? (fun p => p.1 == "instruction")).map Prod.snd).getD
          (.str "No instruction provided"))]) := by
    simp [create_sandbox_environment, hread, hparse, minimal_manifest, pyDictGet]
  refine ⟨hmain, fun m hm => ?_⟩
  rw [hmain] at hm
  exact ⟨_, (Option.some_inj.mp hm).symm⟩

/-- A parse oracle mapping the marker content `OBJ` to a manifest object
with several fields besides the instruction. -/
def c3ObjParse : String → Option Json :=
  fun s =>
    if s == "OBJ" then
      some (.obj [("name", .str "demo task"), ("instruction", .str "Move the player"),
        ("requires_display", .bool true), ("hints", .arr [.str "a hint"])])
    else none

/-- A task directory whose manifest parses as a JSON object with extra
fields. -/
def c3ObjTaskDir : FSList := .cons (.file "task_config.json" "OBJ") .nil

/-- C3 witness: the redacted manifest of a source object with name,
instruction, requires_display and hints fields is exactly
`{"instruction": "Move the player"}`. -/
theorem manifest_redacted_to_instruction_witness :
    (create_sandbox_environment c3ObjTaskDir c3ObjParse (fun _ => "")).2 =
      some (.obj [("instruction", .str "Move the player")]) := by
  have h := (manifest_redacted_to_instruction c3ObjTaskDir c3ObjParse (fun _ => "")
    "OBJ" [("name", .str "demo task"), ("instruction", .str "Move the player"),
      ("requires_display", .bool true), ("hints", .arr [.str "a hint"])]
    rfl rfl).1
  exact h

/-! ### The missing-manifest path and the solver's config check -/

/-- Model of the `SolverResult` dataclass (utils/data_types.py); only the
fields set on the early config-failure path are modelled. -/
structure SolverResult where
  success : Bool
  message : String
  duration_seconds : ℚ
deriving DecidableEq

/-- `load_task_config` from utils/prompts.py: open `task_config.json` in the
current working directory and parse it; any exception (missing file, a
directory in the way, a JSON error) is caught and yields `None`. -/
def load_task_config (cwd : FSList) (parseJson : String → Option Json) : Option Json :=
  match readRootFile cwd "task_config.json" with
  | none => none
  | some content => parseJson content

/-- The config-check head of `CodexSolver.solve_task` (codex_solver.py):
`some r` with the early failure result `r` when the configuration cannot be
loaded (`if not config:`), `none` when execution proceeds to the backend
invocation, which is not modelled further. -/
def solve_task_config_check (cwd : FSList) (parseJson : String → Option Json) :
    Option SolverResult :=
  match load_task_config cwd parseJson with
  | none => some ⟨false, "Could not load task configuration", 0⟩
  | some cfg =>
    if pyTruthy cfg then none
    else some ⟨false, "Could not load task configuration", 0⟩

/-- C10: when the source `task_config.json` is missing or unreadable
(`readRootFile` yields nothing) or not valid JSON (the parse oracle fails),
`_create_sandbox_environment` still returns a sandbox — the model function
is total, every exception on this path being swallowed — with no
replacement manifest written and no `task_config.json` file anywhere in the
sandbox tree, and the subsequent solver attempt fails with the
"Could not load task configuration" result rather than an exception. -/
theorem sandbox_missing_config_fails_gracefully (task_dir : FSList)
    (parseJson : String → Option Json) (printJson : Json → String)
    (hbad : readRootFile task_dir "task_config.json" = none ∨
      ∃ content, readRootFile task_dir "task_config.json" = some content ∧
        parseJson content = none) :
    (create_sandbox_environment task_dir parseJson printJson).2 = none ∧
    anyFileSatL (fun n => n == "task_config.json")
      (create_sandbox_environment task_dir parseJson printJson).1 = false ∧
    solve_task_config_check
        (create_sandbox_environment task_dir parseJson printJson).1 parseJson =
      some ⟨false, "Could not load task configuration", 0⟩ := by
  have hfst : (create_sandbox_environment task_dir parseJson printJson).1 =
      copy_directory_filtered task_dir := by
    rcases hbad with h | ⟨content, hread, hparse⟩
    · simp [create_sandbox_environment, h]
    · simp [create_sandbox_environment, hread, hparse]
  have hsnd : (create_sandbox_environment task_dir parseJson printJson).2 = none := by
    rcases hbad with h | ⟨content, hread, hparse⟩
    · simp [create_sandbox_environment, h]
    · simp [create_sandbox_environment, hread, hparse]
  have hskipname : should_skip_file "task_config.json" = true := by decide
  refine ⟨hsnd, ?_, ?_⟩
  · rw [hfst]
    exact filtered_anyFileSat_false _
      (fun n hn => by
        have : n = "task_config.json" := by simpa using hn
        rw [this]; exact hskipname) task_dir
  · rw [hfst]
    simp [solve_task_config_check, load_task_config,
      readRootFile_filtered_skip _ hskipname task_dir]

/-- A parse oracle that fails on every content (invalid JSON everywhere). -/
def c10Parse : String → Option Json := fun _ => none

/-- A task directory whose manifest file holds text that is not valid JSON. -/
def c10TaskDir : FSList :=
  .cons (.file "task_config.json" "not json at all")
    (.cons (.dir "scenes" (.cons (.file "main.tscn" "scene") .nil)) .nil)

/-- C10 witness: with an unparseable manifest the sandbox is built with no
manifest, and the solver's config check fails with the expected message. -/
theorem sandbox_missing_config_fails_gracefully_witness :
    (create_sandbox_environment c10TaskDir c10Parse (fun _ => "")).2 = none ∧
    anyFileSatL (fun n => n == "task_config.json")
      (create_sandbox_environment c10TaskDir c10Parse (fun _ => "")).1 = false ∧
    solve_task_config_check
        (create_sandbox_environment c10TaskDir c10Parse (fun _ => "")).1 c10Parse =
      some ⟨false, "Could not load task configuration", 0⟩ :=
  sandbox_missing_config_fails_gracefully c10TaskDir c10Parse (fun _ => "")
    (Or.inr ⟨"not json at all", rfl, rfl⟩)

/-! ## Validation-directory assembly (`_copy_sandbox_results_to_validation`)

The validation directory is created fresh and empty (a new uuid path under
the temp directory), so copying every sandbox entry into it yields the
sandbox tree itself; then `scripts/test.gd` (plus `scripts/test.gd.uid` when
present) and `scenes/test.tscn` are re-injected from the original task
directory.  `shutil.copy2` overwrites an existing file at the destination,
but when the destination is an existing *directory* it does not raise: it
copies the source into that directory under `basename(src)` instead.
-/

/-- First entry of a listing with the given name. -/
def findEntryNamed : FSList → String → Option FSTree
  | .nil, _ => none
  | .cons e rest, target =>
    if e.name == target then some e else findEntryNamed rest target

/-- Is a lookup result a directory entry? -/
def entryIsDir : Option FSTree → Bool
  | some (.dir _ _) => true
  | _ => false

/-- Status of the path `root/dirName/fileName`: `none` when it does not
exist (`Path.exists()` false), `some (some c)` when it is a regular file
with content `c`, `some none` when it exists but is a directory — in which
case `shutil.copy2` reading from it raises `IsADirectoryError`. -/
def statFileInDir (root : FSList) (dirName fileName : String) :
    Option (Option String) :=
  match findEntryNamed root dirName with
  | some (.dir _ children) =>
    match findEntryNamed children fileName with
    | some (.file _ content) => some (some content)
    | some (.dir _ _) => some none
    | none => none
  | _ => none

/-- Content of the regular file `dirName/fileName` under `root`, `none`
when the path is missing or a directory. -/
def getFileInDir (root : FSList) (dirName fileName : String) : Option String :=
  match statFileInDir root dirName fileName with
  | some (some content) => some content
  | _ => none

/-- Is the path `root/dirName/fileName` an existing directory? -/
def dirAtPath (root : FSList) (dirName fileName : String) : Bool :=
  match statFileInDir root dirName fileName with
  | some none => true
  | _ => false

/-- The final `open(dst, "wb")` of `shutil.copyfile` on a listing:
overwrite an existing file named `fileName`, create it when absent, raise
(`none`) when a directory of that name is there. -/
def copyfile_write : FSList → String → String → Option FSList
  | .nil, fileName, content => some (.cons (.file fileName content) .nil)
  | .cons (.file n c) rest, fileName, content =>
    if n == fileName then some (.cons (.file fileName content) rest)
    else (copyfile_write rest fileName content).map (.cons (.file n c))
  | .cons (.dir n cs) rest, fileName, content =>
    if n == fileName then none
    else (copyfile_write rest fileName content).map (.cons (.dir n cs))

/-- `shutil.copy2(src, dir/fileName)` on a listing: overwrite an existing
file of that name, create the file if absent; when a *directory* of that
name is there, `copy2` redirects the destination to
`dir/fileName/basename(src)` and writes inside it — at every call site in
the runner `basename(src)` equals `fileName` — raising only if that inner
name is itself occupied by a directory. -/
def put_file : FSList → String → String → Option FSList
  | .nil, fileName, content => some (.cons (.file fileName content) .nil)
  | .cons (.file n c) rest, fileName, content =>
    if n == fileName then some (.cons (.file fileName content) rest)
    else (put_file rest fileName content).map (.cons (.file n c))
  | .cons (.dir n cs) rest, fileName, content =>
    if n == fileName then
      (copyfile_write cs fileName content).map (fun cs2 => .cons (.dir n cs2) rest)
    else (put_file rest fileName content).map (.cons (.dir n cs))

/-- `dst.mkdir(parents=True, exist_ok=True)` followed by
`shutil.copy2(src, dst/fileName)`: ensure the directory `dirName` exists
under the root (raising, `none`, when a file of that name is in the way —
`mkdir(exist_ok=True)` still raises on a non-directory) and write
`fileName` inside it via `put_file`. -/
def put_file_in_dir : FSList → String → String → String → Option FSList
  | .nil, dirName, fileName, content =>
    some (.cons (.dir dirName (.cons (.file fileName content) .nil)) .nil)
  | .cons (.file n c) rest, dirName, fileName, content =>
    if n == dirName then none
    else (put_file_in_dir rest dirName fileName content).map (.cons (.file n c))
  | .cons (.dir n cs) rest, dirName, fileName, content =>
    if n == dirName then (put_file cs fileName content).map (fun cs2 => .cons (.dir n cs2) rest)
    else (put_file_in_dir rest dirName fileName content).map (.cons (.dir n cs))

/-- The trailing `test.tscn` injection of
`_copy_sandbox_results_to_validation`: skipped when the source path does
not exist, raising (`none`) when the source path is a directory. -/
def inject_test_tscn (v : FSList) (task_dir : FSList) : Option FSList :=
  match statFileInDir task_dir "scenes" "test.tscn" with
  | some (some c) => put_file_in_dir v "scenes" "test.tscn" c
  | some none => none
  | none => some v

/-- `_copy_sandbox_results_to_validation`: starting from the sandbox tree
(copied into the fresh empty validation directory), inject the original
task's `scripts/test.gd` (and `scripts/test.gd.uid` when present), then the
original `scenes/test.tscn`.  `none` models an exception escaping the
helper (`mkdir` over a file the agent left, or a source test path that is
a directory). -/
def copy_sandbox_results_to_validation (sandbox_dir task_dir : FSList) :
    Option FSList :=
  match statFileInDir task_dir "scripts" "test.gd" with
  | some (some c) =>
    match put_file_in_dir sandbox_dir "scripts" "test.gd" c with
    | none => none
    | some v1 =>
      match statFileInDir task_dir "scripts" "test.gd.uid" with
      | some (some cu) =>
        match put_file_in_dir v1 "scripts" "test.gd.uid" cu with
        | none => none
        | some v2 => inject_test_tscn v2 task_dir
      | some none => none
      | none => inject_test_tscn v1 task_dir
  | some none => none
  | none => inject_test_tscn sandbox_dir task_dir

/-- Structural induction along the spine of a listing (the mutual recursor
of `FSList` has two motives, which the `induction` tactic cannot use
directly). -/
theorem FSList.spineInduction {motive : FSList → Prop} (nil : motive .nil)
    (cons : ∀ head tail, motive tail → motive (.cons head tail)) :
    ∀ l, motive l
  | .nil => nil
  | .cons e t => cons e t (FSList.spineInduction nil cons t)

theorem findEntryNamed_cons_ne (e : FSTree) (rest : FSList) (d : String)
    (hne : e.name ≠ d) :
    findEntryNamed (.cons e rest) d = findEntryNamed rest d := by
  show (if e.name == d then some e else findEntryNamed rest d) = findEntryNamed rest d
  simp [hne]

theorem statFileInDir_cons_ne (e : FSTree) (rest : FSList) (d f : String)
    (hne : e.name ≠ d) :
    statFileInDir (.cons e rest) d f = statFileInDir rest d f := by
  unfold statFileInDir
  rw [findEntryNamed_cons_ne e rest d hne]

theorem getFileInDir_cons_ne (e : FSTree) (rest : FSList) (d f : String)
    (hne : e.name ≠ d) :
    getFileInDir (.cons e rest) d f = getFileInDir rest d f := by
  unfold getFileInDir
  rw [statFileInDir_cons_ne e rest d f hne]

theorem dirAtPath_cons_ne (e : FSTree) (rest : FSList) (d f : String)
    (hne : e.name ≠ d) :
    dirAtPath (.cons e rest) d f = dirAtPath rest d f := by
  unfold dirAtPath
  rw [statFileInDir_cons_ne e rest d f hne]

theorem statFileInDir_cons_dir (n : String) (cs rest : FSList) (f : String) :
    statFileInDir (.cons (.dir n cs) rest) n f =
      (match findEntryNamed cs f with
       | some (.file _ content) => some (some content)
       | some (.dir _ _) => some none
       | none => none) := by
  unfold statFileInDir findEntryNamed
  simp [FSTree.name]

theorem getFileInDir_eq_some (root : FSList) (d f c : String)
    (h : getFileInDir root d f = some c) :
    statFileInDir root d f = some (some c) := by
  unfold getFileInDir at h
  cases hs : statFileInDir root d f with
  | none => simp [hs] at h
  | some o =>
    cases o with
    | none => simp [hs] at h
    | some c2 =>
      simp only [hs, Option.some.injEq] at h
      subst h
      rfl

theorem put_file_find (cs cs2 : FSList) (fileName content : String)
    (hnd : entryIsDir (findEntryNamed cs fileName) = false)
    (h : put_file cs fileName content = some cs2) :
    findEntryNamed cs2 fileName = some (.file fileName content) := by
  induction cs using FSList.spineInduction generalizing cs2 with
  | nil =>
    simp only [put_file, Option.some_inj] at h
    subst h
    simp [findEntryNamed, FSTree.name]
  | cons e rest ih =>
    cases e with
    | file n c =>
      by_cases hn : n = fileName
      · subst hn
        simp only [put_file, beq_self_eq_true, if_true, Option.some_inj] at h
        subst h
        simp [findEntryNamed, FSTree.name]
      · simp only [put_file, beq_iff_eq, hn, if_false, Option.map_eq_some'] at h
        obtain ⟨rest2, hrest, hcons⟩ := h
        subst hcons
        have hnd2 : entryIsDir (findEntryNamed rest fileName) = false := by
          simpa [findEntryNamed, FSTree.name, hn] using hnd
        simp [findEntryNamed, FSTree.name, hn, ih rest2 hnd2 hrest]
    | dir n cs' =>
      by_cases hn : n = fileName
      · subst hn
        simp [findEntryNamed, FSTree.name, entryIsDir] at hnd
      · simp only [put_file, beq_iff_eq, hn, if_false, Option.map_eq_some'] at h
        obtain ⟨rest2, hrest, hcons⟩ := h
        subst hcons
        have hnd2 : entryIsDir (findEntryNamed rest fileName) = false := by
          simpa [findEntryNamed, FSTree.name, hn] using hnd
        simp [findEntryNamed, FSTree.name, hn, ih rest2 hnd2 hrest]

theorem put_file_find_other (cs cs2 : FSList) (fileName content other : String)
    (hother : other ≠ fileName)
    (h : put_file cs fileName content = some cs2) :
    findEntryNamed cs2 other = findEntryNamed cs other := by
  induction cs using FSList.spineInduction generalizing cs2 with
  | nil =>
    simp only [put_file, Option.some_inj] at h
    subst h
    simp [findEntryNamed, FSTree.name, Ne.symm hother]
  | cons e rest ih =>
    cases e with
    | file n c =>
      by_cases hn : n = fileName
      · subst hn
        simp only [put_file, beq_self_eq_true, if_true, Option.some_inj] at h
        subst h
        simp [findEntryNamed, FSTree.name, hother, Ne.symm hother]
      · simp only [put_file, beq_iff_eq, hn, if_false, Option.map_eq_some'] at h
        obtain ⟨rest2, hrest, hcons⟩ := h
        subst hcons
        simp [findEntryNamed, FSTree.name, ih rest2 hrest]
    | dir n cs' =>
      by_cases hn : n = fileName
      · subst hn
        simp only [put_file, beq_self_eq_true, if_true, Option.map_eq_some'] at h
        obtain ⟨cs2', hw, hcons⟩ := h
        subst hcons
        simp [findEntryNamed, FSTree.name, Ne.symm hother]
      · simp only [put_file, beq_iff_eq, hn, if_false, Option.map_eq_some'] at h
        obtain ⟨rest2, hrest, hcons⟩ := h
        subst hcons
        simp [findEntryNamed, FSTree.name, ih rest2 hrest]

theorem put_file_in_dir_get (v v2 : FSList) (dirName fileName content : String)
    (hnd : dirAtPath v dirName fileName = false)
    (h : put_file_in_dir v dirName fileName content = some v2) :
    getFileInDir v2 dirName fileName = some content := by
  induction v using FSList.spineInduction generalizing v2 with
  | nil =>
    simp only [put_file_in_dir, Option.some_inj] at h
    subst h
    simp [getFileInDir, statFileInDir, findEntryNamed, FSTree.name]
  | cons e rest ih =>
    cases e with
    | file n c =>
      by_cases hn : n = dirName
      · simp [put_file_in_dir, hn] at h
      · simp only [put_file_in_dir, beq_iff_eq, hn, if_false, Option.map_eq_some'] at h
        obtain ⟨rest2, hrest, hcons⟩ := h
        subst hcons
        have hnd2 : dirAtPath rest dirName fileName = false := by
          rw [← dirAtPath_cons_ne (FSTree.file n c) rest dirName fileName
            (by simpa [FSTree.name] using hn)]
          exact hnd
        rw [getFileInDir_cons_ne (FSTree.file n c) rest2 dirName fileName
          (by simpa [FSTree.name] using hn)]
        exact ih rest2 hnd2 hrest
    | dir n cs =>
      by_cases hn : n = dirName
      · subst hn
        simp only [put_file_in_dir, beq_self_eq_true, if_true, Option.map_eq_some'] at h
        obtain ⟨cs2, hcs, hcons⟩ := h
        subst hcons
        have hnd2 : entryIsDir (findEntryNamed cs fileName) = false := by
          unfold dirAtPath at hnd
          rw [statFileInDir_cons_dir] at hnd
          cases hfe : findEntryNamed cs fileName with
          | none => rfl
          | some e2 =>
            cases e2 with
            | file a b => rfl
            | dir a b =>
              rw [hfe] at hnd
              simp at hnd
        have hfind := put_file_find cs cs2 fileName content hnd2 hcs
        unfold getFileInDir
        rw [statFileInDir_cons_dir, hfind]
      · simp only [put_file_in_dir, beq_iff_eq, hn, if_false, Option.map_eq_some'] at h
        obtain ⟨rest2, hrest, hcons⟩ := h
        subst hcons
        have hnd2 : dirAtPath rest dirName fileName = false := by
          rw [← dirAtPath_cons_ne (FSTree.dir n cs) rest dirName fileName
            (by simpa [FSTree.name] using hn)]
          exact hnd
        rw [getFileInDir_cons_ne (FSTree.dir n cs) rest2 dirName fileName
          (by simpa [FSTree.name] using hn)]
        exact ih rest2 hnd2 hrest

theorem put_file_in_dir_get_other (v v2 : FSList) (dirName fileName content d f : String)
    (hdiff : d ≠ dirName ∨ f ≠ fileName)
    (h : put_file_in_dir v dirName fileName content = some v2) :
    getFileInDir v2 d f = getFileInDir v d f := by
  induction v using FSList.spineInduction generalizing v2 with
  | nil =>
    simp only [put_file_in_dir, Option.some_inj] at h
    subst h
    rcases hdiff with hd | hf
    · rw [getFileInDir_cons_ne _ _ _ _ (by simpa [FSTree.name] using Ne.symm hd)]
    · by_cases hd : d = dirName
      · subst hd
        simp [getFileInDir, statFileInDir, findEntryNamed, FSTree.name, Ne.symm hf]
      · rw [getFileInDir_cons_ne _ _ _ _ (by simpa [FSTree.name] using Ne.symm hd)]
  | cons e rest ih =>
    cases e with
    | file n c =>
      by_cases hn : n = dirName
      · simp [put_file_in_dir, hn] at h
      · simp only [put_file_in_dir, beq_iff_eq, hn, if_false, Option.map_eq_some'] at h
        obtain ⟨rest2, hrest, hcons⟩ := h
        subst hcons
        by_cases hnd2 : n = d
        · subst hnd2
          simp [getFileInDir, statFileInDir, findEntryNamed, FSTree.name]
        · rw [getFileInDir_cons_ne _ rest2 _ _ (by simpa [FSTree.name] using hnd2),
            getFileInDir_cons_ne _ rest _ _ (by simpa [FSTree.name] using hnd2)]
          exact ih rest2 hrest
    | dir n cs =>
      by_cases hn : n = dirName
      · subst hn
        simp only [put_file_in_dir, beq_self_eq_true, if_true, Option.map_eq_some'] at h
        obtain ⟨cs2, hcs, hcons⟩ := h
        subst hcons
        by_cases hnd2 : n = d
        · subst hnd2
          have hf2 : f ≠ fileName := by
            rcases hdiff with hd | hf2
            · exact absurd rfl hd
            · exact hf2
          unfold getFileInDir
          rw [statFileInDir_cons_dir, statFileInDir_cons_dir,
            put_file_find_other cs cs2 fileName content f hf2 hcs]
        · rw [getFileInDir_cons_ne _ rest _ _ (by simpa [FSTree.name] using hnd2),
            getFileInDir_cons_ne _ rest _ _ (by simpa [FSTree.name] using hnd2)]
      · simp only [put_file_in_dir, beq_iff_eq, hn, if_false, Option.map_eq_some'] at h
        obtain ⟨rest2, hrest, hcons⟩ := h
        subst hcons
        by_cases hnd2 : n = d
        · subst hnd2
          simp [getFileInDir, statFileInDir, findEntryNamed, FSTree.name]
        · rw [getFileInDir_cons_ne _ rest2 _ _ (by simpa [FSTree.name] using hnd2),
            getFileInDir_cons_ne _ rest _ _ (by simpa [FSTree.name] using hnd2)]
          exact ih rest2 hrest

theorem put_file_in_dir_find_other (v v2 : FSList) (dirName fileName content d : String)
    (hd : d ≠ dirName) (h : put_file_in_dir v dirName fileName content = some v2) :
    findEntryNamed v2 d = findEntryNamed v d := by
  induction v using FSList.spineInduction generalizing v2 with
  | nil =>
    simp only [put_file_in_dir, Option.some_inj] at h
    subst h
    simp [findEntryNamed, FSTree.name, Ne.symm hd]
  | cons e rest ih =>
    cases e with
    | file n c =>
      by_cases hn : n = dirName
      · simp [put_file_in_dir, hn] at h
      · simp only [put_file_in_dir, beq_iff_eq, hn, if_false, Option.map_eq_some'] at h
        obtain ⟨rest2, hrest, hcons⟩ := h
        subst hcons
        simp [findEntryNamed, FSTree.name, ih rest2 hrest]
    | dir n cs =>
      by_cases hn : n = dirName
      · subst hn
        simp only [put_file_in_dir, beq_self_eq_true, if_true, Option.map_eq_some'] at h
        obtain ⟨cs2, hcs, hcons⟩ := h
        subst hcons
        simp [findEntryNamed, FSTree.name, Ne.symm hd]
      · simp only [put_file_in_dir, beq_iff_eq, hn, if_false, Option.map_eq_some'] at h
        obtain ⟨rest2, hrest, hcons⟩ := h
        subst hcons
        simp [findEntryNamed, FSTree.name, ih rest2 hrest]

theorem dirAtPath_other (v v2 : FSList) (dirName fileName content d f : String)
    (hd : d ≠ dirName) (h : put_file_in_dir v dirName fileName content = some v2) :
    dirAtPath v2 d f = dirAtPath v d f := by
  unfold dirAtPath statFileInDir
  rw [put_file_in_dir_find_other v v2 dirName fileName content d hd h]

/-- A sandbox in which the agent replaced `scripts/test.gd` with a
*directory* of that name. -/
def c2DirSandbox : FSList :=
  .cons (.dir "scripts"
      (.cons (.dir "test.gd" .nil)
        (.cons (.file "player.gd" "agent work") .nil)))
    (.cons (.dir "scenes" (.cons (.file "test.tscn" "tampered scene") .nil)) .nil)

/-- The original task directory holding the held-out test artifacts. -/
def c2TaskDir : FSList :=
  .cons (.dir "scripts" (.cons (.file "test.gd" "ORIGINAL_GD") .nil))
    (.cons (.dir "scenes" (.cons (.file "test.tscn" "ORIGINAL_TSCN") .nil)) .nil)

/-- The validation directory the assembly actually produces for
`c2DirSandbox`: the original script ends up *inside* the planted directory,
at `scripts/test.gd/test.gd`. -/
def c2DirResult : FSList :=
  .cons (.dir "scripts"
      (.cons (.dir "test.gd" (.cons (.file "test.gd" "ORIGINAL_GD") .nil))
        (.cons (.file "player.gd" "agent work") .nil)))
    (.cons (.dir "scenes" (.cons (.file "test.tscn" "ORIGINAL_TSCN") .nil)) .nil)

/-- C2 counterexample: the agent leaves a *directory* at `scripts/test.gd`.
`scripts_dst.mkdir(exist_ok=True)` succeeds and `shutil.copy2` does not
raise on a directory destination: it copies the original into it, as
`scripts/test.gd/test.gd`.  Assembly completes and the original test
script exists in the task directory, yet the validation directory holds no
file at `scripts/test.gd` — it is not byte-identical to the original
there, refuting the claim for arbitrary sandbox contents at the test
paths. -/
theorem validation_injection_dir_tamper_counterexample :
    copy_sandbox_results_to_validation c2DirSandbox c2TaskDir = some c2DirResult ∧
    getFileInDir c2TaskDir "scripts" "test.gd" = some "ORIGINAL_GD" ∧
    getFileInDir c2DirResult "scripts" "test.gd" = none ∧
    getFileInDir c2DirResult "scripts" "test.gd" ≠ some "ORIGINAL_GD" :=
  ⟨by decide, by decide, by decide, by decide⟩

/-- C2 (amended): whenever `_copy_sandbox_results_to_validation` completes
and the sandbox does not hold a *directory* at `scripts/test.gd` or
`scenes/test.tscn`, the test script and test scene present in the source
task directory are byte-identical in the assembled validation directory,
no matter what *files* the sandbox contained at those same paths (a file
there is overwritten by the original).  As stated over arbitrary sandbox
contents the claim fails: `shutil.copy2` onto an existing directory copies
the original into it instead of restoring the path — see the
counterexample. -/
theorem validation_injects_original_tests (sandbox_dir task_dir v : FSList)
    (hgd : dirAtPath sandbox_dir "scripts" "test.gd" = false)
    (hts : dirAtPath sandbox_dir "scenes" "test.tscn" = false)
    (hassemble : copy_sandbox_results_to_validation sandbox_dir task_dir = some v) :
    (∀ c, getFileInDir task_dir "scripts" "test.gd" = some c →
      getFileInDir v "scripts" "test.gd" = some c) ∧
    (∀ c, getFileInDir task_dir "scenes" "test.tscn" = some c →
      getFileInDir v "scenes" "test.tscn" = some c) := by
  have hd : ("scripts" : String) ≠ "scenes" := by decide
  have hf : ("test.gd" : String) ≠ "test.gd.uid" := by decide
  constructor
  · intro c hc
    have hstat := getFileInDir_eq_some task_dir "scripts" "test.gd" c hc
    simp only [copy_sandbox_results_to_validation, hstat] at hassemble
    cases h1 : put_file_in_dir sandbox_dir "scripts" "test.gd" c with
    | none => simp [h1] at hassemble
    | some v1 =>
      simp only [h1] at hassemble
      have hv1 := put_file_in_dir_get sandbox_dir v1 _ _ _ hgd h1
      cases h2 : statFileInDir task_dir "scripts" "test.gd.uid" with
      | none =>
        simp only [h2, inject_test_tscn] at hassemble
        cases h3 : statFileInDir task_dir "scenes" "test.tscn" with
        | none =>
          simp only [h3, Option.some.injEq] at hassemble
          subst hassemble
          exact hv1
        | some o3 =>
          cases o3 with
          | none => simp [h3] at hassemble
          | some c3 =>
            simp only [h3] at hassemble
            rw [put_file_in_dir_get_other v1 v _ _ _ _ _ (Or.inl hd) hassemble]
            exact hv1
      | some o2 =>
        cases o2 with
        | none => simp [h2] at hassemble
        | some cu =>
          simp only [h2] at hassemble
          cases h2b : put_file_in_dir v1 "scripts" "test.gd.uid" cu with
          | none => simp [h2b] at hassemble
          | some v2 =>
            simp only [h2b] at hassemble
            have hv2 : getFileInDir v2 "scripts" "test.gd" = some c := by
              rw [put_file_in_dir_get_other v1 v2 _ _ _ _ _ (Or.inr hf) h2b]
              exact hv1
            simp only [inject_test_tscn] at hassemble
            cases h3 : statFileInDir task_dir "scenes" "test.tscn" with
            | none =>
              simp only [h3, Option.some.injEq] at hassemble
              subst hassemble
              exact hv2
            | some o3 =>
              cases o3 with
              | none => simp [h3] at hassemble
              | some c3 =>
                simp only [h3] at hassemble
                rw [put_file_in_dir_get_other v2 v _ _ _ _ _ (Or.inl hd) hassemble]
                exact hv2
  · intro c hc
    have hstat := getFileInDir_eq_some task_dir "scenes" "test.tscn" c hc
    simp only [copy_sandbox_results_to_validation] at hassemble
    cases h1 : statFileInDir task_dir "scripts" "test.gd" with
    | none =>
      simp only [h1, inject_test_tscn, hstat] at hassemble
      exact put_file_in_dir_get sandbox_dir v _ _ _ hts hassemble
    | some o1 =>
      cases o1 with
      | none => simp [h1] at hassemble
      | some cg =>
        simp only [h1] at hassemble
        cases h2 : put_file_in_dir sandbox_dir "scripts" "test.gd" cg with
        | none => simp [h2] at hassemble
        | some v1 =>
          simp only [h2] at hassemble
          have hts1 : dirAtPath v1 "scenes" "test.tscn" = false :=
            (dirAtPath_other sandbox_dir v1 "scripts" "test.gd" cg "scenes" "test.tscn"
              (Ne.symm hd) h2).trans hts
          cases h3 : statFileInDir task_dir "scripts" "test.gd.uid" with
          | none =>
            simp only [h3, inject_test_tscn, hstat] at hassemble
            exact put_file_in_dir_get v1 v _ _ _ hts1 hassemble
          | some o3 =>
            cases o3 with
            | none => simp [h3] at hassemble
            | some cu =>
              simp only [h3] at hassemble
              cases h4 : put_file_in_dir v1 "scripts" "test.gd.uid" cu with
              | none => simp [h4] at hassemble
              | some v2 =>
                simp only [h4] at hassemble
                have hts2 : dirAtPath v2 "scenes" "test.tscn" = false :=
                  (dirAtPath_other v1 v2 "scripts" "test.gd.uid" cu "scenes" "test.tscn"
                    (Ne.symm hd) h4).trans hts1
                simp only [inject_test_tscn, hstat] at hassemble
                exact put_file_in_dir_get v2 v _ _ _ hts2 hassemble

/-- A sandbox in which the agent tampered with both test artifacts as
regular files. -/
def c2Sandbox : FSList :=
  .cons (.dir "scripts"
      (.cons (.file "test.gd" "tampered script")
        (.cons (.file "player.gd" "agent work") .nil)))
    (.cons (.dir "scenes" (.cons (.file "test.tscn" "tampered scene") .nil)) .nil)

/-- The assembled validation directory for the witness inputs. -/
def c2Validation : FSList :=
  .cons (.dir "scripts"
      (.cons (.file "test.gd" "ORIGINAL_GD")
        (.cons (.file "player.gd" "agent work") .nil)))
    (.cons (.dir "scenes" (.cons (.file "test.tscn" "ORIGINAL_TSCN") .nil)) .nil)

/-- C2 witness: concrete sandbox with file-level tampering at both test
paths — the assembled validation directory carries the original test
script and scene. -/
theorem validation_injects_original_tests_witness :
    copy_sandbox_results_to_validation c2Sandbox c2TaskDir = some c2Validation ∧
    getFileInDir c2Validation "scripts" "test.gd" = some "ORIGINAL_GD" ∧
    getFileInDir c2Validation "scenes" "test.tscn" = some "ORIGINAL_TSCN" :=
  ⟨by decide,
    (validation_injects_original_tests c2Sandbox c2TaskDir c2Validation
      (by decide) (by decide) (by decide)).1 "ORIGINAL_GD" (by decide),
    (validation_injects_original_tests c2Sandbox c2TaskDir c2Validation
      (by decide) (by decide) (by decide)).2 "ORIGINAL_TSCN" (by decide)⟩

/-! ## Solver factory (solver_factory.py, base_solver.py)

The registry maps agent names to solver classes; a class is modelled by its
two static capability flags.  `create_solver` validates the agent name and
the MCP capability before instantiation, and `BaseSolver.__init__` re-checks
the MCP flag it is actually handed.
-/

/-- Static capability flags of a solver class (`SUPPORTS_MCP`,
`SUPPORTS_SYSTEM_PROMPT` in base_solver.py). -/
structure SolverClass where
  supports_mcp : Bool
  supports_system_prompt : Bool
deriving DecidableEq

/-- Flags of `ClaudeCodeSolver`. -/
def ClaudeCodeSolverClass : SolverClass := ⟨true, true⟩

/-- Flags of `MiniSweSolver`. -/
def MiniSweSolverClass : SolverClass := ⟨true, false⟩

/-- Flags of `CodexSolver`. -/
def CodexSolverClass : SolverClass := ⟨true, false⟩

/-- Flags of `GeminiSolver`. -/
def GeminiSolverClass : SolverClass := ⟨true, false⟩

/-- Flags of `OpenHandsSolver`. -/
def OpenHandsSolverClass : SolverClass := ⟨true, true⟩

/-- `SolverFactory._SOLVER_REGISTRY`: the four always-available solvers,
plus `openhands` when its import succeeded (`OPENHANDS_AVAILABLE`). -/
def solver_registry (openhandsAvailable : Bool) : List (String × SolverClass) :=
  [("claude-code", ClaudeCodeSolverClass),
   ("mini-swe", MiniSweSolverClass),
   ("codex", CodexSolverClass),
   ("gemini-cli", GeminiSolverClass)] ++
  (if openhandsAvailable then [("openhands", OpenHandsSolverClass)] else [])

/-- The errors `create_solver` can raise: `ValueError` for an unknown agent,
`RuntimeError` for `openhands` without Python 3.12, `ValueError` for an MCP
request on a solver without MCP support (in the factory or again in
`BaseSolver.__init__`). -/
inductive FactoryError where
  | unknownAgent (agent : String) (available : List String)
  | openhandsUnavailable
  | mcpNotSupported (agent : String)
  | mcpNotSupportedAtInit
deriving DecidableEq

/-- A constructed solver instance: its class flags plus the configuration
stored by the constructors. -/
structure Solver where
  cls : SolverClass
  debug : Bool
  timeout_seconds : Nat
  use_runtime_video : Bool
  model : Option String
  use_mcp : Bool
deriving DecidableEq

/-- `BaseSolver.__init__`: re-validate the MCP flag against the class
capability, then store the configuration. -/
def base_solver_init (cls : SolverClass) (timeout_seconds : Nat) (debug use_mcp
    use_runtime_video : Bool) (model : Option String) : Except FactoryError Solver :=
  if use_mcp && !cls.supports_mcp then .error .mcpNotSupportedAtInit
  else .ok ⟨cls, debug, timeout_seconds, use_runtime_video, model, use_mcp⟩

/-- `SolverFactory.create_solver`, over an explicit registry (the class
attribute `_SOLVER_REGISTRY`, which `register_solver` may have extended):
registry lookup, the `openhands` availability check, the MCP capability
check, the per-agent `model` kwarg (dropped when falsy), the `use_mcp`
kwarg (passed only to MCP-capable classes), and finally construction. -/
def create_solver (registry : List (String × SolverClass))
    (openhandsAvailable : Bool) (agent : String) (debug : Bool)
    (model : Option String) (use_mcp : Bool) (timeout_seconds : Nat)
    (use_runtime_video : Bool) : Except FactoryError Solver :=
  match registry.find? (fun p => p.1 == agent) with
  | none => .error (.unknownAgent agent (registry.map Prod.fst))
  | some pair =>
    if agent == "openhands" && !openhandsAvailable then .error .openhandsUnavailable
    else if use_mcp && !pair.2.supports_mcp then .error (.mcpNotSupported agent)
    else
      let modelArg :=
        if agent == "claude-code" || agent == "mini-swe" || agent == "openhands" ||
            agent == "gemini-cli" || agent == "codex" then
          match model with
          | some m => if m == "" then none else some m
          | none => none
        else none
      let mcpArg := if pair.2.supports_mcp then use_mcp else false
      base_solver_init pair.2 timeout_seconds debug mcpArg use_runtime_video modelArg

theorem base_solver_init_ok (cls : SolverClass) (tmo : Nat) (debug use_mcp urv : Bool)
    (model : Option String) (h : (use_mcp && !cls.supports_mcp) = false) :
    base_solver_init cls tmo debug use_mcp urv model =
      .ok ⟨cls, debug, tmo, urv, model, use_mcp⟩ := by
  simp [base_solver_init, h]

theorem find_openhands_needs_available (avail : Bool) (cls : SolverClass)
    (h : (solver_registry avail).find? (fun p => p.1 == "openhands") =
      some ("openhands", cls)) : avail = true := by
  cases avail with
  | true => rfl
  | false =>
    have hmem := List.mem_of_find?_eq_some h
    simp [solver_registry] at hmem

/-- C9: `SolverFactory.create_solver` raises a descriptive error — and
constructs no solver — whenever the agent name is not in the registry, and
whenever `use_mcp=true` is requested for an agent whose solver class has
`SUPPORTS_MCP=false`; for every agent registered in the built-in registry
with the requested capabilities supported, it returns a solver instance
without raising. -/
theorem create_solver_validation (avail : Bool) (agent : String) (debug : Bool)
    (model : Option String) (use_mcp : Bool) (tmo : Nat) (urv : Bool) :
    ((solver_registry avail).find? (fun p => p.1 == agent) = none →
      create_solver (solver_registry avail) avail agent debug model use_mcp tmo urv =
        .error (.unknownAgent agent ((solver_registry avail).map Prod.fst))) ∧
    (∀ (registry : List (String × SolverClass)) (cls : SolverClass),
      registry.find? (fun p => p.1 == agent) = some (agent, cls) →
      use_mcp = true → cls.supports_mcp = false →
      ∃ e, create_solver registry avail agent debug model use_mcp tmo urv = .error e) ∧
    (∀ cls : SolverClass,
      (solver_registry avail).find? (fun p => p.1 == agent) = some (agent, cls) →
      (use_mcp = true → cls.supports_mcp = true) →
      ∃ s, create_solver (solver_registry avail) avail agent debug model use_mcp tmo urv =
          .ok s ∧ s.cls = cls) := by
  refine ⟨?_, ?_, ?_⟩
  · intro hfind
    simp [create_solver, hfind]
  · intro registry cls hfind hmcp hnosupport
    simp only [create_solver, hfind]
    by_cases hoh : agent == "openhands" && !avail
    · exact ⟨.openhandsUnavailable, by simp [hoh]⟩
    · refine ⟨.mcpNotSupported agent, ?_⟩
      simp [hoh, hmcp, hnosupport]
  · intro cls hfind hsupport
    simp only [create_solver, hfind]
    have hoh : (agent == "openhands" && !avail) = false := by
      by_cases ha : agent = "openhands"
      · subst ha
        rw [find_openhands_needs_available avail cls hfind]
        simp
      · simp [ha]
    rw [hoh]
    simp only [Bool.false_eq_true, if_false]
    have hmcpcheck : (use_mcp && !cls.supports_mcp) = false := by
      cases hm : use_mcp with
      | false => simp
      | true => simp [hsupport hm]
    rw [hmcpcheck]
    simp only [Bool.false_eq_true, if_false]
    refine ⟨_, base_solver_init_ok cls tmo debug _ urv _ ?_, rfl⟩
    cases hcs : cls.supports_mcp with
    | true => simp [hcs]
    | false => simp [hcs]

/-- C9 witness: an unknown agent name errors; `codex` with MCP requested
succeeds (its class supports MCP); a custom-registered class without MCP
support errors when MCP is requested. -/
theorem create_solver_validation_witness :
    create_solver (solver_registry true) true "no-such-agent" false none false 600 false =
      .error (.unknownAgent "no-such-agent"
        ["claude-code", "mini-swe", "codex", "gemini-cli", "openhands"]) ∧
    (∃ s, create_solver (solver_registry true) true "codex" false (some "gpt-5") true 600 false =
      .ok s ∧ s.cls = CodexSolverClass) ∧
    (∃ e, create_solver [("custom", ⟨false, false⟩)] true "custom" false none true 600 false =
      .error e) := by
  refine ⟨?_, ?_, ?_⟩
  · have h := (create_solver_validation true "no-such-agent" false none false 600 false).1
      (by decide)
    simpa using h
  · exact (create_solver_validation true "codex" false (some "gpt-5") true 600 false).2.2
      CodexSolverClass (by decide) (fun _ => rfl)
  · exact (create_solver_validation true "custom" false none true 600 false).2.1
      [("custom", ⟨false, false⟩)] ⟨false, false⟩ (by decide) rfl rfl

/-! ## Run controller (`run_all_tasks`, `_save_final_results`,
`_create_final_results_summary`)

One task's outcome is the result dict `run_benchmark` returns, reduced to
the fields the loop and the aggregates read; `none` models `run_benchmark`
raising (the `except` arm of the loop).  The outside world — agents, the
engine, the filesystem walk — is an oracle `outcome : String → Option
TaskRec` assigning each task name its result.  `len(self.list_tasks())`,
re-read from the tasks directory when results are saved, is the parameter
`all_tasks_count`.  Cost/duration statistics (pure float bookkeeping no
claim mentions) are not modelled.
-/

/-- One per-task result record, reduced to the fields the loop and the
aggregate statistics read.  `rate_flag = none` models a dict without the
`is_rate_limited` key (skip records, validate-only records, error
records). -/
structure TaskRec where
  success : Bool
  skipped : Bool
  rate_flag : Option Bool
  input_tokens : Nat
  output_tokens : Nat
  total_tokens : Nat
deriving DecidableEq

/-- The record appended by the loop's `except` arm (has no
`is_rate_limited` key and no token data). -/
def error_task_rec : TaskRec := ⟨false, false, none, 0, 0, 0⟩

/-- Python `round()` (round half to even) at integer precision, on exact
rationals. -/
def roundHalfEven (x : ℚ) : ℤ :=
  if x - ⌊x⌋ < 1 / 2 then ⌊x⌋
  else if x - ⌊x⌋ > 1 / 2 then ⌊x⌋ + 1
  else if ⌊x⌋ % 2 = 0 then ⌊x⌋ else ⌊x⌋ + 1

/-- Python `round(x, 2)` on exact rationals. -/
def round2 (x : ℚ) : ℚ := (roundHalfEven (x * 100) : ℚ) / 100

/-- The aggregate summary dict, reduced to the modelled fields.
`rate_limited`, `incomplete` and `remaining_tasks` are the keys
`_save_final_results` adds on top of `_create_final_results_summary`
(absent keys are the defaults `false` / `none`). -/
structure FinalSummary where
  success : Nat
  failures : Nat
  errors : Nat
  skipped : Nat
  total_tasks_ran : Nat
  tasks_attempted : Int
  task_success_rate : ℚ
  total_input_tokens : Nat
  total_output_tokens : Nat
  total_tokens : Nat
  avg_input_tokens : ℚ
  avg_output_tokens : ℚ
  avg_tokens_per_task : ℚ
  rate_limited : Bool
  incomplete : Bool
  remaining_tasks : Option Int
  tasks : List TaskRec
deriving DecidableEq

/-- `_create_final_results_summary`: `tasks_attempted = total - skipped`,
success rate over the attempted tasks (0 when none), token totals over all
results and token averages over the tasks with nonzero token data, all
rounded to two decimal places. -/
def create_final_results_summary (success_count failure_count error_count
    skipped_count total_tasks : Nat) (results : List TaskRec) : FinalSummary :=
  let tasks_attempted : Int := (total_tasks : Int) - (skipped_count : Int)
  let success_rate : ℚ :=
    if 0 < tasks_attempted then ((success_count : ℚ) / (tasks_attempted : ℚ)) * 100
    else 0
  let total_input : Nat := (results.map (·.input_tokens)).sum
  let total_output : Nat := (results.map (·.output_tokens)).sum
  let total_tok : Nat := (results.map (·.total_tokens)).sum
  let tasks_with_data : Nat := results.countP (fun r => 0 < r.total_tokens)
  let avg_in : ℚ :=
    if 0 < tasks_with_data then (total_input : ℚ) / (tasks_with_data : ℚ) else 0
  let avg_out : ℚ :=
    if 0 < tasks_with_data then (total_output : ℚ) / (tasks_with_data : ℚ) else 0
  let avg_tok : ℚ :=
    if 0 < tasks_with_data then (total_tok : ℚ) / (tasks_with_data : ℚ) else 0
  { success := success_count
    failures := failure_count
    errors := error_count
    skipped := skipped_count
    total_tasks_ran := total_tasks
    tasks_attempted := tasks_attempted
    task_success_rate := round2 success_rate
    total_input_tokens := total_input
    total_output_tokens := total_output
    total_tokens := total_tok
    avg_input_tokens := round2 avg_in
    avg_output_tokens := round2 avg_out
    avg_tokens_per_task := round2 avg_tok
    rate_limited := false
    incomplete := false
    remaining_tasks := none
    tasks := results }

/-- `_save_final_results`: build the summary for the results so far, then
add the rate-limit keys — when rate-limited, `incomplete=true` and
`remaining_tasks = len(self.list_tasks()) - len(results)`. -/
def save_final_results (success_count failure_count error_count skipped_count : Nat)
    (results : List TaskRec) (rate_limited : Bool) (all_tasks_count : Int) :
    FinalSummary :=
  let fr := create_final_results_summary success_count failure_count error_count
    skipped_count results.length results
  { fr with
    rate_limited := rate_limited
    incomplete := rate_limited
    remaining_tasks :=
      if rate_limited then some (all_tasks_count - (results.length : Int)) else none }

/-- The loop state of `run_all_tasks`, together with two ghost traces:
which tasks `run_benchmark` was invoked on, and the sequence of aggregate
snapshots persisted by `_save_final_results`. -/
structure RunState where
  results : List TaskRec
  completed_tasks : List String
  success_count : Nat
  failure_count : Nat
  error_count : Nat
  skipped_count : Nat
  rate_limited : Bool
  attempted : List String
  saved_finals : List FinalSummary
deriving DecidableEq

/-- One iteration of the `for task_name in tasks` loop: run the task,
append the result and the task name, update the counters, refresh the
rate-limit flag when the result dict carries the `is_rate_limited` key,
persist progress and the aggregate snapshot; the boolean is the `break`
taken when the refreshed flag is set.  The `none` branch is the `except`
arm: an error record, `error_count` increment, persistence, no break. -/
def stepTask (outcome : String → Option TaskRec) (all_tasks_count : Int)
    (st : RunState) (t : String) : RunState × Bool :=
  match outcome t with
  | some r =>
    let success_count :=
      if r.skipped then st.success_count
      else if r.success then st.success_count + 1 else st.success_count
    let failure_count :=
      if r.skipped then st.failure_count
      else if r.success then st.failure_count else st.failure_count + 1
    let skipped_count := if r.skipped then st.skipped_count + 1 else st.skipped_count
    let rate_limited := r.rate_flag.getD st.rate_limited
    let results := st.results ++ [r]
    let fin := save_final_results success_count failure_count st.error_count
      skipped_count results rate_limited all_tasks_count
    (⟨results, st.completed_tasks ++ [t], success_count, failure_count,
      st.error_count, skipped_count, rate_limited, st.attempted ++ [t],
      st.saved_finals ++ [fin]⟩, rate_limited)
  | none =>
    let results := st.results ++ [error_task_rec]
    let fin := save_final_results st.success_count st.failure_count
      (st.error_count + 1) st.skipped_count results st.rate_limited all_tasks_count
    (⟨results, st.completed_tasks ++ [t], st.success_count, st.failure_count,
      st.error_count + 1, st.skipped_count, st.rate_limited,
      st.attempted ++ [t], st.saved_finals ++ [fin]⟩, false)

/-- The task loop with its rate-limit early exit. -/
def runLoop (outcome : String → Option TaskRec) (all_tasks_count : Int) :
    List String → RunState → RunState
  | [], st => st
  | t :: rest, st =>
    let step := stepTask outcome all_tasks_count st t
    if step.2 then step.1 else runLoop outcome all_tasks_count rest step.1

/-- The loop state before the first iteration: the loaded results and
completed list, `success_count` counted over them, `failure_count` set to
`len(results) - success_count` (lines 1127–1131), empty ghost traces. -/
def init_run_state (completed0 : List String) (results0 : List TaskRec) : RunState :=
  ⟨results0, completed0, results0.countP (·.success),
   results0.length - results0.countP (·.success), 0, 0, false, [], []⟩

/-- The tail of `run_all_tasks` shared by the fresh and the resumed paths:
initial counters from any loaded results, the loop, then the final summary
with the rate-limit keys, persisted and returned. -/
def run_main_loop (outcome : String → Option TaskRec) (all_tasks_count : Int)
    (tasks : List String) (completed0 : List String) (results0 : List TaskRec) :
    RunState × FinalSummary :=
  let st := runLoop outcome all_tasks_count tasks (init_run_state completed0 results0)
  let fr0 := create_final_results_summary st.success_count st.failure_count
    st.error_count st.skipped_count st.results.length st.results
  let fr := { fr0 with
    rate_limited := st.rate_limited
    incomplete := st.rate_limited
    remaining_tasks :=
      if st.rate_limited then
        some (all_tasks_count - (st.completed_tasks.length : Int))
      else none }
  ({ st with saved_finals := st.saved_finals ++ [fr] }, fr)

/-- `run_all_tasks` (checkpoint-file resume; the separate `resume_from`
path is not modelled): an empty task list returns an empty summary at once;
resuming with a nonempty persisted completed set filters it out of the task
list and, when nothing is left, returns a summary of the loaded results
without running the loop. -/
def run_all_tasks (outcome : String → Option TaskRec) (all_tasks_count : Int)
    (tasks0 : List String) (resume : Bool) (ckptCompleted : List String)
    (ckptResults : List TaskRec) : RunState × FinalSummary :=
  match tasks0.isEmpty with
  | true =>
    (⟨[], [], 0, 0, 0, 0, false, [], []⟩, create_final_results_summary 0 0 0 0 0 [])
  | false =>
    match resume && !ckptCompleted.isEmpty with
    | true =>
      let tasks := tasks0.filter (fun t => !(ckptCompleted.contains t))
      match tasks.isEmpty with
      | true =>
        let sc := ckptResults.countP (·.success)
        let skc := ckptResults.countP (·.skipped)
        (⟨ckptResults, ckptCompleted, sc, ckptResults.length - sc - skc, 0, skc,
          false, [], []⟩,
         create_final_results_summary sc (ckptResults.length - sc - skc) 0 skc
          ckptResults.length ckptResults)
      | false => run_main_loop outcome all_tasks_count tasks ckptCompleted ckptResults
    | false =>
      match resume with
      | true => run_main_loop outcome all_tasks_count tasks0 ckptCompleted ckptResults
      | false => run_main_loop outcome all_tasks_count tasks0 [] []

/-- No rate-limit signal in a task outcome: either an exception (the error
record carries no flag) or a result whose `is_rate_limited` entry is not
`True`. -/
def noRateFlag (o : Option TaskRec) : Bool :=
  match o with
  | some r => !(r.rate_flag == some true)
  | none => true

theorem stepTask_no_rate (outcome : String → Option TaskRec) (ac : Int)
    (st : RunState) (t : String) (hst : st.rate_limited = false)
    (hnr : noRateFlag (outcome t) = true) :
    (stepTask outcome ac st t).2 = false ∧
    (stepTask outcome ac st t).1.rate_limited = false ∧
    (stepTask outcome ac st t).1.attempted = st.attempted ++ [t] ∧
    (stepTask outcome ac st t).1.completed_tasks = st.completed_tasks ++ [t] ∧
    ∃ new, (stepTask outcome ac st t).1.results = st.results ++ new := by
  cases ho : outcome t with
  | none =>
    refine ⟨?_, ?_, ?_, ?_, ⟨[error_task_rec], ?_⟩⟩ <;> simp [stepTask, ho, hst]
  | some r =>
    rw [ho] at hnr
    simp only [noRateFlag, Bool.not_eq_eq_eq_not, Bool.not_true, beq_eq_false_iff_ne,
      ne_eq] at hnr
    cases hf : r.rate_flag with
    | none =>
      refine ⟨?_, ?_, ?_, ?_, ⟨[r], ?_⟩⟩ <;> simp [stepTask, ho, hf, hst]
    | some b =>
      cases b with
      | true => exact absurd hf hnr
      | false =>
        refine ⟨?_, ?_, ?_, ?_, ⟨[r], ?_⟩⟩ <;> simp [stepTask, ho, hf]

theorem stepTask_rate_break (outcome : String → Option TaskRec) (ac : Int)
    (st : RunState) (t : String) (r : TaskRec)
    (ho : outcome t = some r) (hr : r.rate_flag = some true) :
    (stepTask outcome ac st t).2 = true ∧
    (stepTask outcome ac st t).1.rate_limited = true ∧
    (stepTask outcome ac st t).1.attempted = st.attempted ++ [t] ∧
    (stepTask outcome ac st t).1.completed_tasks = st.completed_tasks ++ [t] := by
  refine ⟨?_, ?_, ?_, ?_⟩ <;> simp [stepTask, ho, hr]

theorem runLoop_no_rate (outcome : String → Option TaskRec) (ac : Int)
    (ts : List String) : ∀ st : RunState, st.rate_limited = false →
    (∀ t ∈ ts, noRateFlag (outcome t) = true) →
    (runLoop outcome ac ts st).attempted = st.attempted ++ ts ∧
    (runLoop outcome ac ts st).completed_tasks = st.completed_tasks ++ ts ∧
    (runLoop outcome ac ts st).rate_limited = false ∧
    ∃ new, (runLoop outcome ac ts st).results = st.results ++ new := by
  induction ts with
  | nil =>
    intro st hst _
    exact ⟨by simp [runLoop], by simp [runLoop], by simpa [runLoop] using hst,
      ⟨[], by simp [runLoop]⟩⟩
  | cons t rest ih =>
    intro st hst hnr
    have hstep := stepTask_no_rate outcome ac st t hst (hnr t (by simp))
    have hrec := ih (stepTask outcome ac st t).1 hstep.2.1
      (fun x hx => hnr x (by simp [hx]))
    obtain ⟨new1, hnew1⟩ := hstep.2.2.2.2
    obtain ⟨new2, hnew2⟩ := hrec.2.2.2
    refine ⟨?_, ?_, ?_, ⟨new1 ++ new2, ?_⟩⟩ <;>
      simp only [runLoop, hstep.1, Bool.false_eq_true, if_false]
    · rw [hrec.1, hstep.2.2.1]; simp
    · rw [hrec.2.1, hstep.2.2.2.1]; simp
    · exact hrec.2.2.1
    · rw [hnew2, hnew1]; simp

theorem runLoop_append_no_rate (outcome : String → Option TaskRec) (ac : Int)
    (pre : List String) : ∀ (ts2 : List String) (st : RunState),
    st.rate_limited = false →
    (∀ t ∈ pre, noRateFlag (outcome t) = true) →
    runLoop outcome ac (pre ++ ts2) st =
      runLoop outcome ac ts2 (runLoop outcome ac pre st) := by
  induction pre with
  | nil => intro ts2 st _ _; simp [runLoop]
  | cons t pts ih =>
    intro ts2 st hst hnr
    have hstep := stepTask_no_rate outcome ac st t hst (hnr t (by simp))
    simp only [List.cons_append, runLoop, hstep.1, Bool.false_eq_true, if_false]
    exact ih ts2 (stepTask outcome ac st t).1 hstep.2.1
      (fun x hx => hnr x (by simp [hx]))

/-- C4 (amended): in a fresh run, if the `k`-th processed task's result is
flagged rate-limited (below: `tk`, after the unflagged prefix `pre` of
length `k-1`), then the remaining tasks of the run's task list are never
attempted — the loop stops immediately after that task's result is
recorded and persisted — and the persisted aggregate has `incomplete=true`
and `remaining_tasks` equal to the number of tasks in the tasks directory
minus the number of recorded results, `all_tasks_count - k`.  (When the
run's task list is the whole directory listing, `all_tasks_count` is its
length and this equals `total - k` as the claim states; for a run on a
shorter explicit task list the two differ, see the counterexample.) -/
theorem rate_limit_short_circuit (outcome : String → Option TaskRec)
    (all_tasks_count : Int) (pre rest : List String) (tk : String) (r : TaskRec)
    (hpre : ∀ t ∈ pre, noRateFlag (outcome t) = true)
    (ho : outcome tk = some r) (hr : r.rate_flag = some true) :
    (run_all_tasks outcome all_tasks_count (pre ++ tk :: rest) false [] []).1.attempted =
      pre ++ [tk] ∧
    (run_all_tasks outcome all_tasks_count (pre ++ tk :: rest) false [] []).2.incomplete =
      true ∧
    (run_all_tasks outcome all_tasks_count (pre ++ tk :: rest) false [] []).2.remaining_tasks =
      some (all_tasks_count - ((pre.length : Int) + 1)) := by
  have hne : (pre ++ tk :: rest).isEmpty = false := by
    cases pre <;> simp [List.isEmpty]
  have hrun : run_all_tasks outcome all_tasks_count (pre ++ tk :: rest) false [] [] =
      run_main_loop outcome all_tasks_count (pre ++ tk :: rest) [] [] := by
    simp [run_all_tasks, hne]
  have hst0 : (init_run_state [] []).rate_limited = false := rfl
  have hmid := runLoop_no_rate outcome all_tasks_count pre (init_run_state [] []) hst0 hpre
  have hbrk := stepTask_rate_break outcome all_tasks_count
    (runLoop outcome all_tasks_count pre (init_run_state [] [])) tk r ho hr
  have hloop : runLoop outcome all_tasks_count (pre ++ tk :: rest) (init_run_state [] []) =
      (stepTask outcome all_tasks_count
        (runLoop outcome all_tasks_count pre (init_run_state [] [])) tk).1 := by
    rw [runLoop_append_no_rate outcome all_tasks_count pre (tk :: rest)
      (init_run_state [] []) hst0 hpre]
    simp only [runLoop, hbrk.1, if_true]
  have hcomp : (stepTask outcome all_tasks_count
      (runLoop outcome all_tasks_count pre (init_run_state [] [])) tk).1.completed_tasks.length =
      pre.length + 1 := by
    rw [hbrk.2.2.2, hmid.2.1]
    simp [init_run_state]
  refine ⟨?_, ?_, ?_⟩
  · rw [hrun]
    have hp : (run_main_loop outcome all_tasks_count (pre ++ tk :: rest) [] []).1.attempted =
        (runLoop outcome all_tasks_count (pre ++ tk :: rest) (init_run_state [] [])).attempted :=
      rfl
    rw [hp, hloop, hbrk.2.2.1, hmid.1]
    simp [init_run_state]
  · rw [hrun]
    have hp : (run_main_loop outcome all_tasks_count (pre ++ tk :: rest) [] []).2.incomplete =
        (runLoop outcome all_tasks_count (pre ++ tk :: rest) (init_run_state [] [])).rate_limited :=
      rfl
    rw [hp, hloop]
    exact hbrk.2.1
  · rw [hrun]
    have hp : (run_main_loop outcome all_tasks_count (pre ++ tk :: rest) [] []).2.remaining_tasks =
        (if (runLoop outcome all_tasks_count (pre ++ tk :: rest) (init_run_state [] [])).rate_limited
          then some (all_tasks_count -
            ((runLoop outcome all_tasks_count (pre ++ tk :: rest)
              (init_run_state [] [])).completed_tasks.length : Int))
          else none) := rfl
    rw [hp, hloop]
    simp [hbrk.2.1, hcomp]

/-- An outcome oracle whose task `task_a` hits an API rate limit and whose
other tasks succeed. -/
def c4Outcome : String → Option TaskRec :=
  fun t =>
    if t == "task_a" then some ⟨false, false, some true, 0, 0, 0⟩
    else some ⟨true, false, some false, 0, 0, 0⟩

/-- C4 counterexample: a run over an explicit 2-task list (`total = 2`)
whose first processed task (`k = 1`) is rate-limited, while the tasks
directory holds 5 tasks.  The persisted aggregate's `remaining_tasks` is
`len(self.list_tasks()) - len(results) = 5 - 1 = 4`, not
`total - k = 2 - 1 = 1` as the claim states. -/
theorem rate_limit_remaining_counterexample :
    (run_all_tasks c4Outcome 5 ["task_a", "task_b"] false [] []).2.remaining_tasks =
      some 4 ∧ (4 : Int) ≠ 2 - 1 :=
  ⟨by decide, by decide⟩

/-- C4 witness: first task rate-limited in a fresh 2-task run with a 7-task
directory: only that task is attempted, the aggregate is incomplete, and 6
directory tasks remain. -/
theorem rate_limit_short_circuit_witness :
    (run_all_tasks c4Outcome 7 ["task_a", "task_b"] false [] []).1.attempted =
      ["task_a"] ∧
    (run_all_tasks c4Outcome 7 ["task_a", "task_b"] false [] []).2.incomplete = true ∧
    (run_all_tasks c4Outcome 7 ["task_a", "task_b"] false [] []).2.remaining_tasks =
      some 6 :=
  rate_limit_short_circuit c4Outcome 7 [] ["task_b"] "task_a"
    ⟨false, false, some true, 0, 0, 0⟩ (by decide) rfl rfl

/-- C5 (amended): for a nonempty task list `T` and a persisted completed
set `C` with results `R`, a resumed run that is not cut short by a
rate-limit signal attempts exactly the tasks of `T \ C`, in `T`'s order,
and its final result list is the prior run's records `R`, unchanged,
followed by the new records.  (As stated, over every `T`, the claim fails
at `T = []`: the empty-list early return discards the checkpoint's
records, see the counterexample.  A rate-limit stop inside the resumed run
would likewise end it early, as such a stop must by the rate-limit
short-circuit requirement.) -/
theorem resume_exclusivity (outcome : String → Option TaskRec) (all_tasks_count : Int)
    (T C : List String) (R : List TaskRec) (hT : T ≠ [])
    (hnr : ∀ t ∈ T.filter (fun t => !(C.contains t)), noRateFlag (outcome t) = true) :
    (run_all_tasks outcome all_tasks_count T true C R).1.attempted =
      T.filter (fun t => !(C.contains t)) ∧
    ∃ new, (run_all_tasks outcome all_tasks_count T true C R).1.results = R ++ new := by
  have hne : T.isEmpty = false := by
    cases T with
    | nil => exact absurd rfl hT
    | cons a b => rfl
  cases hC : C.isEmpty with
  | true =>
    have hCnil : C = [] := by simpa using hC
    subst hCnil
    have hfilter : T.filter (fun t => !(([] : List String).contains t)) = T := by
      simp [List.contains]
    rw [hfilter] at hnr
    have hrun : run_all_tasks outcome all_tasks_count T true [] R =
        run_main_loop outcome all_tasks_count T [] R := by
      simp [run_all_tasks, hne]
    have hloop := runLoop_no_rate outcome all_tasks_count T (init_run_state [] R) rfl hnr
    constructor
    · have hp : (run_main_loop outcome all_tasks_count T [] R).1.attempted =
          (runLoop outcome all_tasks_count T (init_run_state [] R)).attempted := rfl
      rw [hrun, hp, hloop.1, hfilter]
      simp [init_run_state]
    · obtain ⟨new, hnew⟩ := hloop.2.2.2
      refine ⟨new, ?_⟩
      have hp : (run_main_loop outcome all_tasks_count T [] R).1.results =
          (runLoop outcome all_tasks_count T (init_run_state [] R)).results := rfl
      rw [hrun, hp, hnew]
      rfl
  | false =>
    cases hT2 : (T.filter (fun t => !(C.contains t))).isEmpty with
    | true =>
      have hfilnil : T.filter (fun t => !(C.contains t)) = [] := by simpa using hT2
      have hrun : (run_all_tasks outcome all_tasks_count T true C R).1 =
          ⟨R, C, R.countP (·.success),
           R.length - R.countP (·.success) - R.countP (·.skipped), 0,
           R.countP (·.skipped), false, [], []⟩ := by
        simp only [run_all_tasks, hne, hC, hT2, Bool.not_false, Bool.true_and]
      rw [hrun, hfilnil]
      exact ⟨rfl, ⟨[], by simp⟩⟩
    | false =>
      have hrun : run_all_tasks outcome all_tasks_count T true C R =
          run_main_loop outcome all_tasks_count
            (T.filter (fun t => !(C.contains t))) C R := by
        simp only [run_all_tasks, hne, hC, hT2, Bool.not_false, Bool.true_and]
      have hloop := runLoop_no_rate outcome all_tasks_count
        (T.filter (fun t => !(C.contains t))) (init_run_state C R) rfl hnr
      constructor
      · have hp : (run_main_loop outcome all_tasks_count
            (T.filter (fun t => !(C.contains t))) C R).1.attempted =
            (runLoop outcome all_tasks_count (T.filter (fun t => !(C.contains t)))
              (init_run_state C R)).attempted := rfl
        rw [hrun, hp, hloop.1]
        simp [init_run_state]
      · obtain ⟨new, hnew⟩ := hloop.2.2.2
        refine ⟨new, ?_⟩
        have hp : (run_main_loop outcome all_tasks_count
            (T.filter (fun t => !(C.contains t))) C R).1.results =
            (runLoop outcome all_tasks_count (T.filter (fun t => !(C.contains t)))
              (init_run_state C R)).results := rfl
        rw [hrun, hp, hnew]
        rfl

/-- A persisted record from a prior run. -/
def c5Prior : TaskRec := ⟨true, false, some false, 1, 1, 2⟩

/-- C5 counterexample: resuming with an empty task list `T = []` and a
nonempty checkpoint hits the empty-list early return, whose result set is
empty — the checkpoint's record for `task_a` is not carried into the final
result set, so the claim fails as stated for every `T`. -/
theorem resume_empty_list_counterexample :
    (run_all_tasks (fun _ => none) 0 [] true ["task_a"] [c5Prior]).1.results = [] ∧
    (run_all_tasks (fun _ => none) 0 [] true ["task_a"] [c5Prior]).2.tasks = [] ∧
    [c5Prior] ≠ ([] : List TaskRec) :=
  ⟨by decide, by decide, by decide⟩

/-- An outcome oracle where every task completes without a rate-limit
signal. -/
def c5Outcome : String → Option TaskRec :=
  fun _ => some ⟨true, false, some false, 10, 5, 15⟩

/-- C5 witness: resuming `["t1", "t2", "t3"]` with completed set `["t2"]`
attempts exactly `t1` and `t3`, in order, and keeps the prior record as an
unchanged prefix of the final results. -/
theorem resume_exclusivity_witness :
    (run_all_tasks c5Outcome 3 ["t1", "t2", "t3"] true ["t2"] [c5Prior]).1.attempted =
      ["t1", "t3"] ∧
    ∃ new, (run_all_tasks c5Outcome 3 ["t1", "t2", "t3"] true ["t2"] [c5Prior]).1.results =
      [c5Prior] ++ new := by
  have h := resume_exclusivity c5Outcome 3 ["t1", "t2", "t3"] ["t2"] [c5Prior]
    (by decide) (by decide)
  exact ⟨h.1.trans (by decide), h.2⟩

/-- C8: over a result list with `N` records of which `S` are skipped and
`P` passed, the aggregate summary reports `tasks_attempted = N - S` and a
success rate of `P / (N - S) * 100` rounded to two decimal places — the
skipped tasks are excluded from the denominator — and a rate of 0 when
`N - S = 0`. -/
theorem success_rate_denominator (failure_count error_count : Nat)
    (results : List TaskRec) :
    (create_final_results_summary (results.countP (·.success)) failure_count
      error_count (results.countP (·.skipped)) results.length results).tasks_attempted =
      (results.length : Int) - (results.countP (·.skipped) : Int) ∧
    (results.countP (·.skipped) < results.length →
      (create_final_results_summary (results.countP (·.success)) failure_count
        error_count (results.countP (·.skipped)) results.length results).task_success_rate =
        round2 (((results.countP (·.success) : ℚ) /
          ((results.length : ℚ) - (results.countP (·.skipped) : ℚ))) * 100)) ∧
    ((results.length : Int) - (results.countP (·.skipped) : Int) = 0 →
      (create_final_results_summary (results.countP (·.success)) failure_count
        error_count (results.countP (·.skipped)) results.length results).task_success_rate =
        0) := by
  refine ⟨rfl, ?_, ?_⟩
  · intro hlt
    have hpos : (0 : Int) <
        (results.length : Int) - (results.countP (·.skipped) : Int) := by omega
    simp only [create_final_results_summary, hpos, if_true]
    congr 1
    push_cast
    ring
  · intro hz
    have hneg : ¬ (0 : Int) <
        (results.length : Int) - (results.countP (·.skipped) : Int) := by omega
    simp only [create_final_results_summary, hneg, if_false]
    norm_num [round2, roundHalfEven]

/-- Results of a 3-task run: one skipped, one passed, one failed. -/
def c8Results : List TaskRec :=
  [⟨false, true, none, 0, 0, 0⟩, ⟨true, false, some false, 100, 50, 150⟩,
   ⟨false, false, some false, 10, 5, 15⟩]

/-- C8 witness: with `N = 3`, `S = 1`, `P = 1` the reported rate is
`P / (N - S) * 100 = 50`, not `P / N * 100`. -/
theorem success_rate_denominator_witness :
    (create_final_results_summary (c8Results.countP (·.success)) 1 0
      (c8Results.countP (·.skipped)) c8Results.length c8Results).task_success_rate =
      round2 (((c8Results.countP (·.success) : ℚ) /
        ((c8Results.length : ℚ) - (c8Results.countP (·.skipped) : ℚ))) * 100) :=
  (success_rate_denominator 1 0 c8Results).2.1 (by decide)

end GameDevBench
